import Mathlib

/-!
# Verification of the automation scheduling core

This file is a shallow embedding, in Lean 4, of the automation-scheduling core of
the repository: the schedule utilities (`getCurrentTimeInTimezone`,
`getDayOfWeekInTimezone`, `calculateNextRunAt` from `utils/automationSchedule.ts`)
and the automation route (`shouldRunAutomation`, `createAutomatedJob` from
`api/automation.ts`), together with theorems about them.

## Time model

The source manipulates JavaScript `Date` values and the `Intl` API.  The embedding
models:

* an instant as its epoch value in milliseconds (`Int`), exactly as
  `Date.prototype.getTime` exposes it;
* an IANA timezone as a fixed UTC offset in minutes (`oZ : Int`); the host
  process's local zone (which `new Date(y, m, d, ...)`, `setDate`, `setHours` and
  date-string parsing consult) is a second fixed offset (`oH : Int`).  Both are
  explicit parameters of the embedded schedule functions, so the host-zone
  dependence of the source is visible in the model.  Daylight-saving transitions
  are outside the model (each zone is one constant offset);
* the civil (wall-clock) reading of an instant at offset `o` via the "rank"
  `t / 1000 + o * 60` in seconds, decoded into year/month/day/hour/minute by the
  standard proleptic-Gregorian conversion (`civilFromDays`);
* `Intl.DateTimeFormat(..., {timeZone}).formatToParts` / weekday formatting for
  the evaluator route abstractly, as a `ZoneView` record carrying exactly the
  data the route reads from it (current components, current weekday name, and
  components of an arbitrary instant), indexed by a resolver
  `zones : String → Option ZoneView`; an unrecognized zone identifier resolves to
  `none`, which models the `RangeError` the `Intl.DateTimeFormat` constructor
  throws.

JavaScript numeric string parsing is modelled by `jsParseInt` (`parseInt`:
leading-digits parse, `NaN ↦ none`) and `jsNumber` (`Number`: whole-string parse,
`"" ↦ 0`, `NaN ↦ none`); `Number` of a fractional or exotic numeral is modelled
as `none` — the schedule grammar (`"HH:MM"`, day tokens) only produces integral
numerals, and every use of a parse result in the source is a comparison that a
`NaN` fails, which `Option.bind` reproduces.
-/

/-! ## JavaScript primitive models -/

/-- Value of a list of decimal digit characters. -/
def digitsToNat (ds : List Char) : Nat :=
  ds.foldl (fun a c => a * 10 + (c.toNat - 48)) 0

/-- Split an optional leading sign off a character list. -/
def splitSign : List Char → Int × List Char
  | '-' :: t => (-1, t)
  | '+' :: t => (1, t)
  | cs => (1, cs)

/-- A whitespace character, as JavaScript's trimming sees it. -/
def isJsSpace (c : Char) : Bool :=
  c == ' ' || c == '\t' || c == '\n' || c == '\r'

/-- `String.prototype.trim`: strip leading and trailing whitespace (on the
character list of the string). -/
def trimChars (cs : List Char) : List Char :=
  ((cs.dropWhile isJsSpace).reverse.dropWhile isJsSpace).reverse

/-- `s.trim() === ""`: the string is blank. -/
def jsBlank (s : String) : Bool :=
  (trimChars s.data).isEmpty

/-- JavaScript `String.prototype.split` on a one-character separator. -/
def splitChars (sep : Char) : List Char → List (List Char)
  | [] => [[]]
  | c :: t =>
    if c == sep then [] :: splitChars sep t
    else
      match splitChars sep t with
      | [] => [[c]]
      | h :: r => (c :: h) :: r

/-- JavaScript `parseInt`: skip leading whitespace, optional sign, then take the
leading run of digits; `none` models `NaN` (no leading digit). -/
def jsParseInt (s : String) : Option Int :=
  let (sign, cs) := splitSign (trimChars s.data)
  let ds := cs.takeWhile Char.isDigit
  if ds.isEmpty then none else some (sign * (digitsToNat ds : Int))

/-- JavaScript `Number(string)` on a character list, restricted to integral
numerals: the empty (or all-whitespace) string is `0`, a signed run of digits
is its value, anything else is `none` (models `NaN`; fractional numerals are
outside the model). -/
def jsNumberChars (cs : List Char) : Option Int :=
  let t := trimChars cs
  if t.isEmpty then some 0
  else
    let (sign, ds) := splitSign t
    if !ds.isEmpty && ds.all Char.isDigit then some (sign * (digitsToNat ds : Int))
    else none

/-- JavaScript `Number(string)`. -/
def jsNumber (s : String) : Option Int :=
  jsNumberChars s.data

/-- JavaScript `Array.prototype.indexOf` on a list of strings: `-1` when absent. -/
def jsIndexOf (l : List String) (s : String) : Int :=
  match l.findIdx? (· == s) with
  | some i => (i : Int)
  | none => -1

/-- `needle` starts `hay` (character lists). -/
def listLeads : List Char → List Char → Bool
  | [], _ => true
  | _ :: _, [] => false
  | a :: as, b :: bs => a == b && listLeads as bs

/-- `needle` occurs somewhere inside `hay` (character lists). -/
def occursIn (needle : List Char) : List Char → Bool
  | [] => needle.isEmpty
  | c :: t => listLeads needle (c :: t) || occursIn needle t

/-- JavaScript `hay.includes(needle)` for strings. -/
def jsIncludes (hay needle : String) : Bool :=
  occursIn needle.data hay.data

/-- JavaScript `x || d` for an optional number field: `undefined`/`null` and `0`
are falsy and select the default. -/
def jsOrInt (x : Option Int) (d : Int) : Int :=
  match x with
  | none => d
  | some 0 => d
  | some n => n

/-- JavaScript `x || d` for an optional string field: `undefined`/`null` and the
empty string are falsy and select the default. -/
def jsOrStr (x : Option String) (d : String) : String :=
  match x with
  | none => d
  | some "" => d
  | some s => s

/-! ## Civil calendar arithmetic

`civilFromDays` is the standard conversion from a count of days since 1970-01-01
to a proleptic-Gregorian `(year, month 1..12, day)` triple; it is what the host
`Date` accessors (`getFullYear`, `getMonth`, `getDate`) expose for the civil day
of an instant. -/

/-- Days since epoch to `(year, month 1..12, day 1..31)`. -/
def civilFromDays (z : Int) : Int × Int × Int :=
  let z := z + 719468
  let era := Int.fdiv z 146097
  let doe := z - era * 146097
  let yoe := Int.fdiv (doe - Int.fdiv doe 1460 + Int.fdiv doe 36524 - Int.fdiv doe 146096) 365
  let y := yoe + era * 400
  let doy := doe - (365 * yoe + Int.fdiv yoe 4 - Int.fdiv yoe 100)
  let mp := Int.fdiv (5 * doy + 2) 153
  let d := doy - Int.fdiv (153 * mp + 2) 5 + 1
  let m := mp + (if mp < 10 then 3 else -9)
  (if m ≤ 2 then y + 1 else y, m, d)

/-- The civil reading a JavaScript `Date` accessor suite exposes: year,
zero-based month (`getMonth`), day of month, hour, minute. -/
structure HostCivil where
  year : Int
  month : Int
  day : Int
  hour : Int
  minute : Int
deriving DecidableEq, Repr

/-- Seconds-rank of an instant at offset `o` minutes: the wall clock an observer
at that offset reads, measured in seconds as if it were UTC. -/
def rankOf (o e : Int) : Int :=
  Int.fdiv e 1000 + o * 60

/-- Decode a seconds-rank into the `Date` accessor components. -/
def hostCivilOfRank (r : Int) : HostCivil :=
  let days := Int.fdiv r 86400
  let secs := r % 86400
  let c := civilFromDays days
  { year := c.1, month := c.2.1 - 1, day := c.2.2
    hour := Int.fdiv secs 3600, minute := Int.fdiv (secs % 3600) 60 }

/-- Weekday index of a seconds-rank, `0 = Sunday .. 6 = Saturday` (day 0 of the
epoch, 1970-01-01, was a Thursday). This is what `Intl`'s `weekday: "short"`
formatter reports for the corresponding wall clock. -/
def weekdayIdxOfRank (r : Int) : Int :=
  (Int.fdiv r 86400 + 4) % 7

/-! ## Embedding of `utils/automationSchedule.ts` -/

def DEFAULT_TIMEZONE : String := "Asia/Almaty"

/-- The `dayNames` array of the source, `["Sun", ..., "Sat"]`. -/
def dayNamesList : List String :=
  ["Sun", "Mon", "Tue", "Wed", "Thu", "Fri", "Sat"]

/-- Weekday name reported by `Intl` for a seconds-rank. -/
def weekdayNameOfRank (r : Int) : String :=
  dayNamesList.getD (weekdayIdxOfRank r).toNat ""

/-- `getDayOfWeekInTimezone` (automationSchedule.ts, lines 40-55), given the
weekday abbreviation the `Intl` formatter produced for the instant in the zone:
looks the name up in `dayNames` and pairs it with the string of
`dayIndex === 0 ? 7 : dayIndex`. -/
def getDayOfWeekInTimezone (dayName : String) : String × String :=
  let dayIndex := jsIndexOf dayNamesList dayName
  let dayNumber := toString (if dayIndex = 0 then 7 else dayIndex)
  (dayName, dayNumber)

/-- The day-token parse of `calculateNextRunAt` (lines 75-83): a weekday
abbreviation maps to its `dayNames` index; otherwise `parseInt` is tried and a
value `1..7` maps to `num === 7 ? 0 : num`; anything else is dropped. -/
def parseDayToken (d : String) : Option Int :=
  let dayIndex := jsIndexOf dayNamesList d
  if 0 ≤ dayIndex then some dayIndex
  else
    match jsParseInt d with
    | some num => if 1 ≤ num ∧ num ≤ 7 then some (if num = 7 then 0 else num) else none
    | none => none

/-- The `"HH:MM"` parse both files use: `t.split(":").map(Number)` destructured
into hour and minute; a missing or `NaN` component disqualifies the entry (in
`calculateNextRunAt` through the explicit `isNaN` filter, in
`shouldRunAutomation` because every comparison against a `NaN` difference is
false). -/
def parseTimeEntry (t : String) : Option (Int × Int) :=
  match (splitChars ':' t.data).map jsNumberChars with
  | h? :: m? :: _ => do
    let h ← h?
    let m ← m?
    pure (h, m)
  | _ => none

/-- One `candidateDate` insertion step of the scan in `calculateNextRunAt`
(lines 142-144): keep the incumbent unless the new candidate is strictly
earlier. -/
def keepEarlier (cand : Option Int) (cDate : Int) : Option Int :=
  match cand with
  | none => some cDate
  | some b => if cDate < b then some cDate else some b

/-- The last-run suppression of `calculateNextRunAt` (lines 126-140).
`lastRunInTz` is built as `getCurrentTimeInTimezone(timezone)` and then
immediately overwritten wholesale by `setTime(lastRun.getTime())`, so it is
simply `new Date(lastRunAt)` and its `get*` accessors read the HOST-zone civil
components of `lastRunAt` (the reinterpretation into the config zone is
ineffective in the source). A falsy (`0`) `lastRunAt` skips the check. -/
def suppressedByLastRun (oH : Int) (lastRunAt : Option Int) (candRank : Int) : Bool :=
  match lastRunAt with
  | none => false
  | some t =>
    if t = 0 then false
    else
      let lr := hostCivilOfRank (rankOf oH t)
      let cc := hostCivilOfRank candRank
      cc.day == lr.day && cc.month == lr.month && cc.year == lr.year &&
        cc.hour == lr.hour && cc.minute == lr.minute

/-- The body of the inner `for (const time of validTimes)` loop of
`calculateNextRunAt` (lines 116-145): `candidateDate` is `checkDate` with
`setHours(h, m, 0, 0)` applied, i.e. the host-civil day of `checkDate` with the
(unvalidated, possibly out-of-range) hour and minute added — JavaScript
normalizes out-of-range components by rolling the date, which adding
`h·3600 + m·60` seconds to the day start reproduces. A candidate on day offset
0 at or before `now` is skipped (121-123), a candidate matching `lastRunAt` is
skipped (126-140), the earliest survivor is kept (142-144). -/
def timeSlotStep (oH e0 : Int) (lastRunAt : Option Int) (checkDate : Int) (k : Nat)
    (cand : Option Int) (tm : Int × Int) : Option Int :=
  let dayStart := Int.fdiv (rankOf oH checkDate) 86400 * 86400
  let candRank := dayStart + tm.1 * 3600 + tm.2 * 60
  let cDate := (candRank - oH * 60) * 1000
  if k = 0 ∧ cDate ≤ e0 then cand
  else if suppressedByLastRun oH lastRunAt candRank then cand
  else keepEarlier cand cDate

/-- The body of the outer `for (let dayOffset = 0; dayOffset < 7; ...)` loop of
`calculateNextRunAt` (lines 105-146): `checkDate` is `now` advanced by `k`
whole host-civil days (`setDate(getDate() + dayOffset)`); its weekday is
formatted in the config zone and looked up in `dayNames`; a non-matching day
contributes nothing. -/
def dayStep (validDays : List Int) (validTimes : List (Int × Int)) (oZ oH e0 : Int)
    (lastRunAt : Option Int) (cand : Option Int) (k : Nat) : Option Int :=
  let checkDate := e0 + (k : Int) * 86400000
  let dayName := weekdayNameOfRank (rankOf oZ checkDate)
  let dayIndex := jsIndexOf dayNamesList (getDayOfWeekInTimezone dayName).1
  if ! validDays.contains dayIndex then cand
  else validTimes.foldl (timeSlotStep oH e0 lastRunAt checkDate k) cand

/-- `calculateNextRunAt` (automationSchedule.ts, lines 60-176), over the
fixed-offset time model. `oZ` is the offset of the config timezone, `oH` the
offset of the host process's zone, `tNow` the current epoch in milliseconds.

Line map: the `times`/`daysOfWeek` emptiness guards (66-68); `now =
getCurrentTimeInTimezone(timezone)` (70) is the zone wall clock re-interpreted
as a host-local `Date`, i.e. the instant `(tNow/1000 + (oZ - oH)·60)·1000`;
`validDays` (75-87) and `validTimes` (90-100); the 7-day scan (105-146) walks
`checkDate = now + k days` (`setDate` adds whole host-civil days), formats its
weekday in the config zone, and for each parsed time builds the candidate by
`setHours(h, m, 0, 0)` on the host-civil day of `checkDate`; a candidate on day
offset 0 at or before `now` is skipped (121-123), a candidate matching the
host-civil date+hour+minute of `lastRunAt` is skipped (126-140), and the
earliest survivor is kept (142-144). The final block (154-175) re-parses the
candidate's civil components as a host-local instant (`tempDate`, equal to the
candidate itself since it is second-aligned) and adjusts it by
`offset = utcDate - tzDate`, the difference of the host re-parses of the UTC and
zone renderings of `tempDate`, which evaluates to `-oZ·60000`. -/
def calculateNextRunAt (times daysOfWeek : List String) (oZ oH tNow : Int)
    (lastRunAt : Option Int) : Option Int :=
  if times.isEmpty || daysOfWeek.isEmpty then none
  else
    let e0 := (Int.fdiv tNow 1000 + (oZ - oH) * 60) * 1000
    let validDays := daysOfWeek.filterMap parseDayToken
    if validDays.isEmpty then none
    else
      let validTimes := times.filterMap parseTimeEntry
      if validTimes.isEmpty then none
      else
        let candidate := (List.range 7).foldl
          (dayStep validDays validTimes oZ oH e0 lastRunAt) none
        match candidate with
        | none => none
        | some cDate =>
          let tempDate := cDate
          let utcDate := (Int.fdiv tempDate 1000 - oH * 60) * 1000
          let tzDate := (Int.fdiv tempDate 1000 + (oZ - oH) * 60) * 1000
          let offset := utcDate - tzDate
          some (tempDate - offset)

/-! ## Embedding of `api/automation.ts`

### Data model

`ChannelAutomation` mirrors the automation record the route reads and writes
(the `channel.automation` object: the fields of `models/channel.ts` plus the
`timeZone`, `nextRunAt`, `isRunning`, `runId` fields the route itself
manipulates). Optional numeric fields are `Option Int` so that JavaScript
`undefined`/`null` is representable. -/

structure ChannelAutomation where
  enabled : Bool
  frequencyPerDay : Int
  times : List String
  daysOfWeek : List String
  autoApproveAndUpload : Bool
  useOnlyFreshIdeas : Bool
  maxActiveTasks : Option Int
  lastRunAt : Option Int
  nextRunAt : Option Int
  timeZone : Option String
  isRunning : Bool
  runId : Option String
deriving DecidableEq, Repr

/-- The slice of a channel record the automation route reads. -/
structure Channel where
  id : String
  name : String
  automation : Option ChannelAutomation
deriving DecidableEq, Repr

/-- Raw `Intl.DateTimeFormat(...).formatToParts` components of an instant in a
zone (month 1..12 as the formatter renders it). -/
structure IntlParts where
  year : Int
  month : Int
  day : Int
  hour : Int
  minute : Int
deriving DecidableEq, Repr

/-- Components of "now" as `getCurrentTimeComponentsInTimezone` hands them to the
route (month zero-based, see `getCurrentTimeComponentsInTimezone` below). -/
structure NowParts where
  year : Int
  month : Int
  day : Int
  hour : Int
  minute : Int
deriving DecidableEq, Repr

/-- Everything the automation route reads from the `Intl` machinery for one
recognized zone: the current wall-clock components, the weekday abbreviation of
the current instant, and the components of an arbitrary instant (used to
reinterpret `lastRunAt`). -/
structure ZoneView where
  nowParts : NowParts
  nowWeekdayName : String
  partsAt : Int → IntlParts

/-- The error an unrecognized zone identifier raises (the `RangeError` of the
`Intl.DateTimeFormat` constructor; `InvalidTimezone` in the spec's taxonomy). -/
inductive TzError where
  | invalidTimezone
deriving DecidableEq, Repr

/-- Modelled from the spec: `getCurrentTimeComponentsInTimezone` is imported by
`api/automation.ts` from the schedule-utility module, but its definition is not
among the provided sources (only this caller is). Per the spec contract
`now_in_zone(zone) -> {year, month, day, hour, minute, second}` it returns the
wall-clock components an observer in the zone reads at the current instant; the
route compares its `month` against an `Intl` month minus one, and its present
sibling `getCurrentTimeInTimezone` also computes `parseInt(month) - 1`, so the
components carry a zero-based month. In the embedding the zone's current
components live in the `ZoneView`, and an unrecognized zone has no `ZoneView`
(the resolver returns `none`), modelling the spec's `InvalidTimezone` failure. -/
def getCurrentTimeComponentsInTimezone (v : ZoneView) : NowParts :=
  v.nowParts

/-- The weekday gate of `shouldRunAutomation` (lines 43-52): the current day
matches when `daysOfWeek` contains either the abbreviation or the ordinal string
produced by `getDayOfWeekInTimezone`. -/
def dayMatches (daysOfWeek : List String) (wname : String) : Bool :=
  let p := getDayOfWeekInTimezone wname
  daysOfWeek.contains p.1 || daysOfWeek.contains p.2

/-- One iteration of the time loop of `shouldRunAutomation` (lines 59-105):
blank entries are skipped; the entry is a candidate when
`0 ≤ diff ≤ intervalMinutes` for
`diff = current minutes-of-day - scheduled minutes-of-day`; a candidate is
suppressed when a truthy `lastRunAt`, formatted in the zone, has the same
year/month/day as "now" and exactly the scheduled hour and minute. -/
def slotFires (v : ZoneView) (lastRunAt : Option Int) (intervalMinutes : Int)
    (scheduledTime : String) : Bool :=
  if jsBlank scheduledTime then false
  else
    match parseTimeEntry scheduledTime with
    | none => false
    | some (scheduledHour, scheduledMinute) =>
      let c := getCurrentTimeComponentsInTimezone v
      let diffMinutes := (c.hour * 60 + c.minute) - (scheduledHour * 60 + scheduledMinute)
      if 0 ≤ diffMinutes ∧ diffMinutes ≤ intervalMinutes then
        match lastRunAt with
        | none => true
        | some t =>
          if t = 0 then true
          else
            let lr := v.partsAt t
            !(lr.year == c.year && lr.month - 1 == c.month && lr.day == c.day &&
              lr.hour == scheduledHour && lr.minute == scheduledMinute)
      else false

/-- `shouldRunAutomation` (automation.ts, lines 19-108). Rejects when automation
is absent or disabled (23-25) or already running (28-33); resolves the zone from
`automation.timeZone || DEFAULT_TIMEZONE` (36) — the `Except` propagates the
`Intl` `RangeError` of an unrecognized identifier; matches the weekday (43-52);
then scans `automation.times` (59-105). -/
def shouldRunAutomation (zones : String → Option ZoneView) (channel : Channel)
    (intervalMinutes : Int) : Except TzError Bool :=
  match channel.automation with
  | none => .ok false
  | some automation =>
    if !automation.enabled then .ok false
    else if automation.isRunning then .ok false
    else
      let timezone := jsOrStr automation.timeZone DEFAULT_TIMEZONE
      match zones timezone with
      | none => .error .invalidTimezone
      | some v =>
        if !dayMatches automation.daysOfWeek v.nowWeekdayName then .ok false
        else .ok (automation.times.any (slotFires v automation.lastRunAt intervalMinutes))

/-! ### The run coordinator `createAutomatedJob` -/

/-- An idea returned by the idea-generation collaborator. -/
structure Idea where
  title : String
  description : String
deriving DecidableEq, Repr

/-- The structured result of the prompt-generation collaborator. -/
structure VeoPromptResult where
  veoPrompt : String
  videoTitle : String
deriving DecidableEq, Repr

/-- The collaborators `createAutomatedJob` calls, with their outcomes for the run
under consideration. `usedIdeas` is the result of `getUsedIdeasForChannel`
(whose own failures are swallowed into `[]`); `ideas1` and `ideas2` are the
results of the first and the fallback `generateIdeas(channel, null, 5)` calls;
`veoPrompt` is `generateVeoPrompt` applied to the selected idea; `createJob` is
the job-store creation (the follow-up `updateJob(job.id, {isAuto: true})` is a
job-store write that does not touch the channel state). -/
structure Collab where
  activeCount : Nat
  usedIdeas : List String
  ideas1 : Except String (List Idea)
  ideas2 : Except String (List Idea)
  veoPrompt : Idea → Except String VeoPromptResult
  createJob : VeoPromptResult → Except String String

/-- The fresh-ideas filter (automation.ts, lines 188-197): drop a candidate idea
when some used idea's lowercased text contains the candidate's lowercased title
or description as a substring. -/
def filterFreshIdeas (usedIdeas : List String) (ideas : List Idea) : List Idea :=
  ideas.filter (fun idea =>
    ! usedIdeas.any (fun used =>
      jsIncludes used.toLower idea.title.toLower ||
      jsIncludes used.toLower idea.description.toLower))

/-- The idea-selection stage (automation.ts, lines 179-221): collect used ideas
when `useOnlyFreshIdeas` (181-184), request a batch (185), filter it when
`useOnlyFreshIdeas` and there are used ideas (188-197), re-request an unfiltered
batch when the result is empty (199-204), fail when still empty (206-208), and
take the first idea (218). -/
def selectIdea (c : Collab) (automation : ChannelAutomation) : Except String Idea := do
  let usedIdeas := if automation.useOnlyFreshIdeas then c.usedIdeas else []
  let ideas ← c.ideas1
  let ideas :=
    if automation.useOnlyFreshIdeas && !usedIdeas.isEmpty then
      filterFreshIdeas usedIdeas ideas
    else ideas
  let ideas ← if ideas.isEmpty then c.ideas2 else pure ideas
  match ideas with
  | [] => .error "Failed to generate ideas"
  | idea :: _ => pure idea

/-- The idea → prompt → job pipeline after the capacity check (automation.ts,
lines 179-249): any collaborator failure aborts the run as a hard failure. -/
def pipelineJobId (c : Collab) (automation : ChannelAutomation) : Except String String := do
  let selectedIdea ← selectIdea c automation
  let veoPromptResult ← c.veoPrompt selectedIdea
  let jobId ← c.createJob veoPromptResult
  pure jobId

/-- The lock revert persisted on the capacity skip and on every hard failure
(automation.ts, lines 168-174 and 321-328): the original in-memory automation
record spread with `isRunning: false, runId: null`. -/
def revertLock (a : ChannelAutomation) : ChannelAutomation :=
  { a with isRunning := false, runId := none }

/-- `createAutomatedJob` (automation.ts, lines 134-352) for a channel whose
`automation` record is present (the function dereferences it with the non-null
assertion `channel.automation!`). Besides the returned job id it yields the
sequence of automation records persisted through `updateChannel`, in order.

Parameters: `oZ`/`oH` are the offsets of the resolved config zone
(`channel.automation?.timeZone || DEFAULT_TIMEZONE`, line 135) and of the host
zone, handed to the embedded `calculateNextRunAt`; `rid` is the fresh opaque
`runId` string built on line 136; `startTime` is the `Date.now()` read at entry
(line 137), which the source uses only for duration logging; `nowCommit` is the
`const now = Date.now()` read at the success commit (line 263), used as the new
`lastRunAt` and as the `lastRunAt` argument of the `nextRunAt` recomputation.

Steps: persist the lock `{...automation, isRunning: true, runId}` (152-158);
count active jobs and on `activeCount >= maxActive` (with
`maxActive = automation.maxActiveTasks || 2`) persist the revert and return null
(161-176); run the pipeline; on success persist
`{...automation, lastRunAt: now, nextRunAt, isRunning: true, runId}` (271-279)
and return the job id; on any thrown error persist the revert and return null
(319-331). Telegram notification sends (294-307, 334-348) touch no channel
state and are omitted. -/
def createAutomatedJob (c : Collab) (oZ oH : Int) (rid : String)
    (startTime nowCommit : Int) (automation : ChannelAutomation) :
    Option String × List ChannelAutomation :=
  let locked := { automation with isRunning := true, runId := some rid }
  let maxActive := jsOrInt automation.maxActiveTasks 2
  if maxActive ≤ (c.activeCount : Int) then
    (none, [locked, revertLock automation])
  else
    match pipelineJobId c automation with
    | .error _ => (none, [locked, revertLock automation])
    | .ok jobId =>
      let nextRunAt := calculateNextRunAt automation.times automation.daysOfWeek
        oZ oH nowCommit (some nowCommit)
      let committed := { automation with
        lastRunAt := some nowCommit
        nextRunAt := nextRunAt
        isRunning := true
        runId := some rid }
      (some jobId, [locked, committed])

/-! ## Concrete fixtures

Channel configurations and zone views used by the witness and counterexample
theorems below. `monViewAt h m` is the view of the default zone on Monday
2025-01-06 at wall clock `h:m`; 2025-01-06 is day 20094 of the epoch and a
Monday. -/

/-- Zone view: Monday 2025-01-06, current wall clock `h:m`. -/
def monViewAt (h m : Int) : ZoneView :=
  { nowParts := { year := 2025, month := 0, day := 6, hour := h, minute := m }
    nowWeekdayName := "Mon"
    partsAt := fun _ => { year := 1970, month := 1, day := 1, hour := 0, minute := 0 } }

/-- Zone view: Sunday 2025-01-05, current wall clock 10:03. -/
def sunView1003 : ZoneView :=
  { nowParts := { year := 2025, month := 0, day := 5, hour := 10, minute := 3 }
    nowWeekdayName := "Sun"
    partsAt := fun _ => { year := 1970, month := 1, day := 1, hour := 0, minute := 0 } }

/-- Zone view: Tuesday 2025-01-07, current wall clock 10:03. -/
def tueView1003 : ZoneView :=
  { nowParts := { year := 2025, month := 0, day := 7, hour := 10, minute := 3 }
    nowWeekdayName := "Tue"
    partsAt := fun _ => { year := 1970, month := 1, day := 1, hour := 0, minute := 0 } }

/-- Zone view: Monday 2025-01-06 10:03, where the instant `1000` reads back as
Monday 2025-01-06 10:00 in the zone (an `IntlParts` month is one-based). -/
def monViewLastRun : ZoneView :=
  { nowParts := { year := 2025, month := 0, day := 6, hour := 10, minute := 3 }
    nowWeekdayName := "Mon"
    partsAt := fun t =>
      if t = 1000 then { year := 2025, month := 1, day := 6, hour := 10, minute := 0 }
      else { year := 1970, month := 1, day := 1, hour := 0, minute := 0 } }

/-- Zone view: Monday 2025-01-06 10:03, where every instant (in particular the
epoch instant `0`) reads back as Monday 2025-01-06 10:00 in the zone. -/
def monViewEpochRun : ZoneView :=
  { nowParts := { year := 2025, month := 0, day := 6, hour := 10, minute := 3 }
    nowWeekdayName := "Mon"
    partsAt := fun _ => { year := 2025, month := 1, day := 6, hour := 10, minute := 0 } }

/-- A resolver that recognizes only the default zone, as the given view. -/
def almatyOnly (v : ZoneView) : String → Option ZoneView :=
  fun z => if z = "Asia/Almaty" then some v else none

/-- Baseline automation config: enabled, idle, `times = ["10:00"]`,
`daysOfWeek = ["Mon"]`, default zone, no previous run. -/
def baseAuto : ChannelAutomation :=
  { enabled := true, frequencyPerDay := 1, times := ["10:00"], daysOfWeek := ["Mon"]
    autoApproveAndUpload := false, useOnlyFreshIdeas := false, maxActiveTasks := some 2
    lastRunAt := none, nextRunAt := none, timeZone := none, isRunning := false
    runId := none }

/-- Wrap an automation record into a channel. -/
def mkChan (a : ChannelAutomation) : Channel :=
  { id := "c1", name := "ch", automation := some a }

/-- Collaborators for a fully successful run: no active jobs, one idea, prompt
and job creation succeed with job id `"job1"`. -/
def okCollab : Collab :=
  { activeCount := 0, usedIdeas := []
    ideas1 := .ok [{ title := "T", description := "D" }]
    ideas2 := .ok []
    veoPrompt := fun _ => .ok { veoPrompt := "P", videoTitle := "V" }
    createJob := fun _ => .ok "job1" }

/-- Collaborators where prompt generation throws. -/
def promptFailCollab : Collab :=
  { okCollab with veoPrompt := fun _ => .error "prompt boom" }

/-- Ordinal of a `dayNames` index in the convention the code implements:
Monday = 1 .. Saturday = 6, Sunday (`dayNames` index 0) = 7. -/
def mondayOrdinal (i : Nat) : Nat :=
  if i = 0 then 7 else i

/-! ## Theorems -/

/-- C7: for every schedule configuration, current time and interval width,
`is_due` (`shouldRunAutomation`) returns false whenever `enabled` is false or
`isRunning` is true; both guards fire before any zone resolution or day/time
matching is attempted. -/
theorem evaluatorGuards_reject (zones : String → Option ZoneView) (channel : Channel)
    (intervalMinutes : Int) (a : ChannelAutomation)
    (ha : channel.automation = some a)
    (h : a.enabled = false ∨ a.isRunning = true) :
    shouldRunAutomation zones channel intervalMinutes = .ok false := by
  rcases h with h | h
  · simp [shouldRunAutomation, ha, h]
  · cases he : a.enabled
    · simp [shouldRunAutomation, ha, he]
    · simp [shouldRunAutomation, ha, he, h]

/-- Witness for `evaluatorGuards_reject`: a running channel on an otherwise due
Monday 10:03 is not due. -/
theorem evaluatorGuards_reject_witness :
    shouldRunAutomation (almatyOnly (monViewAt 10 3))
      (mkChan { baseAuto with isRunning := true }) 6 = .ok false :=
  evaluatorGuards_reject _ _ 6 _ rfl (Or.inr rfl)

/-- C8: when the channel's count of active jobs has reached the effective
`maxActiveTasks` ceiling, `createAutomatedJob` returns null, having persisted
first the lock (`isRunning = true` with the fresh `runId`) and then its release
(`isRunning = false`, `runId = null`); the lock is never left held. -/
theorem capacitySkip_releasesLock (c : Collab) (oZ oH : Int) (rid : String)
    (startTime nowCommit : Int) (a : ChannelAutomation)
    (hcap : jsOrInt a.maxActiveTasks 2 ≤ (c.activeCount : Int)) :
    createAutomatedJob c oZ oH rid startTime nowCommit a =
      (none, [{ a with isRunning := true, runId := some rid },
              { a with isRunning := false, runId := none }]) := by
  simp [createAutomatedJob, revertLock, hcap]

/-- Witness for `capacitySkip_releasesLock`: two active jobs against the default
ceiling of two. -/
theorem capacitySkip_releasesLock_witness :
    createAutomatedJob { okCollab with activeCount := 2 } 360 360 "rid" 0 5 baseAuto =
      (none, [{ baseAuto with isRunning := true, runId := some "rid" },
              { baseAuto with isRunning := false, runId := none }]) :=
  capacitySkip_releasesLock _ 360 360 "rid" 0 5 baseAuto (by norm_num [baseAuto, jsOrInt])

/-- C2: when any pipeline step after locking throws (idea generation, prompt
generation or job creation — all failures surface through `pipelineJobId`), the
run returns null and persists the lock followed by the revert: `isRunning` is
false, `runId` is null, and `lastRunAt` is the original value, unchanged. -/
theorem pipelineFailure_revertsLock (c : Collab) (oZ oH : Int) (rid : String)
    (startTime nowCommit : Int) (a : ChannelAutomation) (msg : String)
    (hcap : (c.activeCount : Int) < jsOrInt a.maxActiveTasks 2)
    (hfail : pipelineJobId c a = .error msg) :
    createAutomatedJob c oZ oH rid startTime nowCommit a =
      (none, [{ a with isRunning := true, runId := some rid },
              { a with isRunning := false, runId := none }]) ∧
    ({ a with isRunning := false, runId := none } : ChannelAutomation).lastRunAt
      = a.lastRunAt := by
  refine ⟨?_, rfl⟩
  simp [createAutomatedJob, revertLock, not_le.mpr hcap, hfail]

/-- Witness for `pipelineFailure_revertsLock`: prompt generation throws; the
channel ends idle with its `lastRunAt` still `none`. -/
theorem pipelineFailure_revertsLock_witness :
    createAutomatedJob promptFailCollab 360 360 "rid" 0 5 baseAuto =
      (none, [{ baseAuto with isRunning := true, runId := some "rid" },
              { baseAuto with isRunning := false, runId := none }]) ∧
    ({ baseAuto with isRunning := false, runId := none } : ChannelAutomation).lastRunAt
      = baseAuto.lastRunAt :=
  pipelineFailure_revertsLock promptFailCollab 360 360 "rid" 0 5 baseAuto "prompt boom"
    (by decide) rfl

/-- C10: a falsy `maxActiveTasks` (absent, null or `0`) is replaced by the
default ceiling `2` (`automation.maxActiveTasks || 2`), and in particular a
channel configured with `maxActiveTasks = 0` is not prevented from creating
jobs: below two active jobs its run proceeds to a job id. -/
theorem maxActive_falsyDefaultTwo :
    (∀ a : ChannelAutomation, a.maxActiveTasks = none ∨ a.maxActiveTasks = some 0 →
      jsOrInt a.maxActiveTasks 2 = 2) ∧
    (∀ (c : Collab) (oZ oH : Int) (rid : String) (startTime nowCommit : Int)
      (a : ChannelAutomation) (jobId : String),
      a.maxActiveTasks = some 0 → c.activeCount < 2 → pipelineJobId c a = .ok jobId →
      (createAutomatedJob c oZ oH rid startTime nowCommit a).1 = some jobId) := by
  constructor
  · intro a h
    rcases h with h | h <;> simp [jsOrInt, h]
  · intro c oZ oH rid startTime nowCommit a jobId hmax hcnt hok
    have h2 : jsOrInt a.maxActiveTasks 2 = 2 := by simp [jsOrInt, hmax]
    have : ¬ (jsOrInt a.maxActiveTasks 2 ≤ (c.activeCount : Int)) := by
      rw [h2]
      exact_mod_cast Nat.not_le.mpr hcnt
    simp [createAutomatedJob, this, hok]

/-- Witness for `maxActive_falsyDefaultTwo`: `maxActiveTasks = 0`, one active
job, successful pipeline — a job is still created. -/
theorem maxActive_falsyDefaultTwo_witness :
    jsOrInt (some 0) 2 = 2 ∧
    (createAutomatedJob { okCollab with activeCount := 1 } 360 360 "rid" 0 5
      { baseAuto with maxActiveTasks := some 0 }).1 = some "job1" :=
  ⟨maxActive_falsyDefaultTwo.1 { baseAuto with maxActiveTasks := some 0 } (Or.inr rfl),
   maxActive_falsyDefaultTwo.2 _ 360 360 "rid" 0 5 _ "job1" rfl (by norm_num) rfl⟩

/-- C9 counterexample: a channel whose `timeZone` is the unrecognized identifier
`"Mars/Olympus"`, on a Monday 10:03 where the default-zone evaluation would be
due. The claim says the evaluator falls back to the default zone (verdict
`.ok true`); the code instead propagates the timezone failure: only a falsy
(absent/empty) `timeZone` selects the default zone, an unrecognized identifier
reaches the `Intl` constructor and throws. -/
theorem unknownZone_noFallback_cx :
    shouldRunAutomation (almatyOnly (monViewAt 10 3))
      (mkChan { baseAuto with timeZone := some "Mars/Olympus" }) 6
      = .error .invalidTimezone ∧
    shouldRunAutomation (almatyOnly (monViewAt 10 3)) (mkChan baseAuto) 6 = .ok true ∧
    (Except.error TzError.invalidTimezone : Except TzError Bool) ≠ .ok true :=
  ⟨rfl, rfl, by simp⟩

/-- C9 (amended): an unrecognized timezone identifier makes `is_due` fail with
the invalid-timezone error, which propagates to the caller (the scheduled loop
catches it per channel and skips the channel) — there is no fallback evaluation
in the default zone; the default zone is selected only when `timeZone` is
absent (or empty, i.e. falsy), in which case the evaluation is exactly the
default-zone evaluation. -/
theorem unknownZone_propagates :
    (∀ (zones : String → Option ZoneView) (channel : Channel) (intervalMinutes : Int)
      (a : ChannelAutomation),
      channel.automation = some a → a.enabled = true → a.isRunning = false →
      zones (jsOrStr a.timeZone DEFAULT_TIMEZONE) = none →
      shouldRunAutomation zones channel intervalMinutes = .error .invalidTimezone) ∧
    (∀ (zones : String → Option ZoneView) (intervalMinutes : Int) (a : ChannelAutomation),
      shouldRunAutomation zones (mkChan { a with timeZone := none }) intervalMinutes =
      shouldRunAutomation zones (mkChan { a with timeZone := some DEFAULT_TIMEZONE })
        intervalMinutes) := by
  constructor
  · intro zones channel intervalMinutes a ha hen hrun hz
    simp [shouldRunAutomation, ha, hen, hrun, hz]
  · intro zones intervalMinutes a
    rfl

/-- Witness for `unknownZone_propagates`: a resolver that recognizes nothing
makes the evaluation fail. -/
theorem unknownZone_propagates_witness :
    shouldRunAutomation (fun _ => none) (mkChan baseAuto) 6 = .error .invalidTimezone :=
  unknownZone_propagates.1 (fun _ => none) (mkChan baseAuto) 6 baseAuto rfl rfl rfl rfl

/-- C5 counterexample: a candidate slot inside the due window (Monday 10:03,
slot 10:00, interval 6) whose `lastRunAt` is the epoch instant `0`, which the
zone view reads back as the same calendar date (2025-01-06) at exactly 10:00.
The claim says the slot is suppressed (not due); the code's `if
(automation.lastRunAt)` treats the value `0` as falsy, skips the suppression
check entirely, and reports the channel due. -/
theorem lastRunEpoch_notSuppressed_cx :
    shouldRunAutomation (almatyOnly monViewEpochRun)
      (mkChan { baseAuto with lastRunAt := some 0 }) 6 = .ok true :=
  rfl

/-- C5 (amended): a candidate slot is suppressed — and, for a single-slot
schedule, the channel is not due — when `lastRunAt` is present **and nonzero**
(the code's `if (automation.lastRunAt)` treats `0` as absent) and its zone
reading falls on the current calendar date with exactly the scheduled hour and
minute. -/
theorem sameDaySlot_suppressed (zones : String → Option ZoneView) (channel : Channel)
    (intervalMinutes : Int) (a : ChannelAutomation) (v : ZoneView) (s : String)
    (sh sm t : Int)
    (ha : channel.automation = some a)
    (hen : a.enabled = true) (hrun : a.isRunning = false)
    (hz : zones (jsOrStr a.timeZone DEFAULT_TIMEZONE) = some v)
    (htimes : a.times = [s])
    (hparse : parseTimeEntry s = some (sh, sm))
    (hlast : a.lastRunAt = some t) (ht : t ≠ 0)
    (hy : (v.partsAt t).year = v.nowParts.year)
    (hm : (v.partsAt t).month - 1 = v.nowParts.month)
    (hd : (v.partsAt t).day = v.nowParts.day)
    (hh : (v.partsAt t).hour = sh)
    (hmin : (v.partsAt t).minute = sm) :
    shouldRunAutomation zones channel intervalMinutes = .ok false := by
  have hfire : slotFires v a.lastRunAt intervalMinutes s = false := by
    simp only [slotFires, hparse, hlast, getCurrentTimeComponentsInTimezone]
    split
    · rfl
    · split
      · simp [ht, hy, hm, hd, hh, hmin]
      · rfl
  simp only [shouldRunAutomation, ha, hen, hrun, hz, Bool.not_true, Bool.false_eq_true,
    if_false, if_true]
  split
  · rfl
  · simp [htimes, hfire]

/-- Witness for `sameDaySlot_suppressed`: Monday 10:03, slot `"10:00"`, with
`lastRunAt = 1000` reading back as Monday 2025-01-06 10:00 in the zone. -/
theorem sameDaySlot_suppressed_witness :
    shouldRunAutomation (almatyOnly monViewLastRun)
      (mkChan { baseAuto with lastRunAt := some 1000 }) 6 = .ok false :=
  sameDaySlot_suppressed (almatyOnly monViewLastRun)
    (mkChan { baseAuto with lastRunAt := some 1000 }) 6
    { baseAuto with lastRunAt := some 1000 } monViewLastRun "10:00" 10 0 1000
    rfl rfl rfl rfl rfl rfl rfl (by decide) rfl rfl rfl rfl rfl

/-- C3 counterexample: the weekday resolver pairs Tuesday with the ordinal
string `"2"`, not `"3"` — the code's convention is Monday = 1 .. Sunday = 7
(`dayIndex === 0 ? 7 : dayIndex`), not 1 = Sunday as the claim (and the
source's own line-52 comment) state. Concretely, on a Tuesday 10:03 a schedule
with `daysOfWeek = ["3"]` is not due, while `["Tue"]` is. -/
theorem dayOrdinal_notSundayBased_cx :
    getDayOfWeekInTimezone "Tue" = ("Tue", "2") ∧
    ("2" : String) ≠ "3" ∧
    shouldRunAutomation (almatyOnly tueView1003)
      (mkChan { baseAuto with daysOfWeek := ["3"] }) 6 = .ok false ∧
    shouldRunAutomation (almatyOnly tueView1003)
      (mkChan { baseAuto with daysOfWeek := ["Tue"] }) 6 = .ok true :=
  ⟨rfl, by decide, rfl, rfl⟩

/-- `calculateNextRunAt` depends on `daysOfWeek` only through its emptiness and
its `parseDayToken` image. -/
theorem calculateNextRunAt_daysCongr (times d1 d2 : List String) (oZ oH tNow : Int)
    (lastRunAt : Option Int)
    (h : d1.filterMap parseDayToken = d2.filterMap parseDayToken)
    (he : d1.isEmpty = d2.isEmpty) :
    calculateNextRunAt times d1 oZ oH tNow lastRunAt =
    calculateNextRunAt times d2 oZ oH tNow lastRunAt := by
  unfold calculateNextRunAt
  rw [h, he]

/-- A singleton `daysOfWeek` matches the same current weekdays whether it holds
the abbreviation or the Monday-based ordinal string. -/
theorem dayMatches_single_ord (i : Nat) (hi : i < 7) (w : String)
    (hw : w ∈ dayNamesList) :
    dayMatches [dayNamesList.getD i ""] w =
    dayMatches [toString (mondayOrdinal i)] w := by
  simp only [dayNamesList, List.mem_cons, List.not_mem_nil, or_false] at hw
  interval_cases i <;> rcases hw with rfl | rfl | rfl | rfl | rfl | rfl | rfl <;> decide

/-- C3 (amended): the weekday resolver yields the pair (three-letter
abbreviation, ordinal string) under the convention Monday = 1 .. Sunday = 7, so
`"2"` — not `"3"` — matches a Tuesday; under that convention the abbreviation
and the ordinal are interchangeable, both in due-ness evaluation (for any zone
view whose current weekday is a genuine abbreviation) and in next-run
computation. -/
theorem dayToken_mondayConvention :
    (∀ i : Nat, i < 7 → getDayOfWeekInTimezone (dayNamesList.getD i "") =
      (dayNamesList.getD i "", toString (mondayOrdinal i))) ∧
    (∀ i : Nat, i < 7 → parseDayToken (dayNamesList.getD i "") = some (i : Int) ∧
      parseDayToken (toString (mondayOrdinal i)) = some (i : Int)) ∧
    (∀ (zones : String → Option ZoneView) (intervalMinutes : Int)
      (a : ChannelAutomation) (i : Nat), i < 7 →
      (∀ v, zones (jsOrStr a.timeZone DEFAULT_TIMEZONE) = some v →
        v.nowWeekdayName ∈ dayNamesList) →
      shouldRunAutomation zones (mkChan { a with daysOfWeek := [dayNamesList.getD i ""] })
        intervalMinutes =
      shouldRunAutomation zones (mkChan { a with daysOfWeek := [toString (mondayOrdinal i)] })
        intervalMinutes) ∧
    (∀ (times : List String) (oZ oH tNow : Int) (lastRunAt : Option Int) (i : Nat), i < 7 →
      calculateNextRunAt times [dayNamesList.getD i ""] oZ oH tNow lastRunAt =
      calculateNextRunAt times [toString (mondayOrdinal i)] oZ oH tNow lastRunAt) := by
  refine ⟨?_, ?_, ?_, ?_⟩
  · intro i hi; interval_cases i <;> decide
  · intro i hi; interval_cases i <;> exact ⟨by decide, by decide⟩
  · intro zones intervalMinutes a i hi hview
    simp only [shouldRunAutomation, mkChan]
    cases he : a.enabled
    · rfl
    · cases hr : a.isRunning
      · cases hz : zones (jsOrStr a.timeZone DEFAULT_TIMEZONE)
        · rfl
        · rename_i v
          have := dayMatches_single_ord i hi v.nowWeekdayName (hview v hz)
          simp only [this]
      · rfl
  · intro times oZ oH tNow lastRunAt i hi
    apply calculateNextRunAt_daysCongr
    · interval_cases i <;> decide
    · rfl

/-- Witness for `dayToken_mondayConvention`: instantiated at Tuesday
(`dayNames` index 2). -/
theorem dayToken_mondayConvention_witness :
    parseDayToken "Tue" = some 2 ∧ parseDayToken "2" = some 2 :=
  dayToken_mondayConvention.2.1 2 (by norm_num)

/-- C6 evaluation at the failing input (the claim's own example, instant
1736132400000 = Monday 2025-01-06 09:00 in the default zone, offset +360):
the emptiness guards do return null, and the scan does select the Monday 10:00
(respectively, from Monday 16:00 local = 1736157600000, the Wednesday 10:00)
slot — but the final wall-clock→UTC conversion applies the zone offset with the
wrong sign, so the returned instant is not "Monday 10:00" (1736136000000, i.e.
04:00 UTC): with a UTC host (`oH = 0`) the run of Monday 09:00 yields
1736179200000 = Monday 16:00 UTC = Monday 22:00 local, and with a host in the
default zone itself (`oH = 360`) it yields 1736157600000 = Monday 16:00 local.
The spec's conversion contract ("computing the zone's UTC offset at that
wall-clock moment") is the clear intent; the code's
`return tempDate.getTime() - offset` with `offset = utcDate - tzDate` is the
slip. -/
theorem calculateNextRunAt_conversion_bug :
    calculateNextRunAt [] ["Mon", "Wed"] 360 0 1736132400000 none = none ∧
    calculateNextRunAt ["10:00", "15:00"] [] 360 0 1736132400000 none = none ∧
    calculateNextRunAt ["10:00", "15:00"] ["Mon", "Wed"] 360 0 1736132400000 none
      = some 1736179200000 ∧
    calculateNextRunAt ["10:00", "15:00"] ["Mon", "Wed"] 360 360 1736132400000 none
      = some 1736157600000 ∧
    (1736179200000 : Int) ≠ 1736136000000 ∧
    (1736157600000 : Int) ≠ 1736136000000 ∧
    calculateNextRunAt ["10:00", "15:00"] ["Mon", "Wed"] 360 0 1736157600000 none
      = some 1736352000000 ∧
    (1736352000000 : Int) ≠ 1736308800000 :=
  ⟨rfl, rfl, rfl, rfl, by decide, by decide, rfl, by decide⟩

/-- C4: due-ness is window-based on minutes-of-day. For the schedule
`times = ["10:00"]`, `daysOfWeek = ["Mon"]` in the default zone with no
previous run, evaluation on a Monday at wall clock `h:m` is due exactly when
`0 ≤ (h·60 + m) - 600 ≤ intervalMinutes`; concretely with
`intervalMinutes = 6` the channel is due at Monday 10:03, not due at Monday
10:07 (difference 7 exceeds 6), and not due at Sunday 10:03 (day mismatch). -/
theorem dueWindow_minutesOfDay :
    (∀ (h m intervalMinutes : Int),
      shouldRunAutomation (almatyOnly (monViewAt h m)) (mkChan baseAuto) intervalMinutes =
        .ok (decide (0 ≤ (h * 60 + m) - 600 ∧ (h * 60 + m) - 600 ≤ intervalMinutes))) ∧
    shouldRunAutomation (almatyOnly (monViewAt 10 3)) (mkChan baseAuto) 6 = .ok true ∧
    shouldRunAutomation (almatyOnly (monViewAt 10 7)) (mkChan baseAuto) 6 = .ok false ∧
    shouldRunAutomation (almatyOnly sunView1003) (mkChan baseAuto) 6 = .ok false := by
  refine ⟨?_, rfl, rfl, rfl⟩
  intro h m intervalMinutes
  have h1 : jsBlank "10:00" = false := by decide
  have h2 : parseTimeEntry "10:00" = some (10, 0) := by decide
  have hs : slotFires (monViewAt h m) none intervalMinutes "10:00"
      = decide (0 ≤ (h * 60 + m) - 600 ∧ (h * 60 + m) - 600 ≤ intervalMinutes) := by
    simp only [slotFires, h1, h2, getCurrentTimeComponentsInTimezone, monViewAt,
      Bool.false_eq_true, if_false]
    by_cases hP : (0:Int) ≤ h * 60 + m - (10 * 60 + 0) ∧
        h * 60 + m - (10 * 60 + 0) ≤ intervalMinutes
    · rw [if_pos hP, eq_comm, decide_eq_true_eq]
      omega
    · rw [if_neg hP, eq_comm, decide_eq_false_iff_not]
      omega
  calc shouldRunAutomation (almatyOnly (monViewAt h m)) (mkChan baseAuto) intervalMinutes
      = .ok (slotFires (monViewAt h m) none intervalMinutes "10:00" || false) := rfl
    _ = .ok (decide (0 ≤ (h * 60 + m) - 600 ∧ (h * 60 + m) - 600 ≤ intervalMinutes)) := by
        rw [Bool.or_false, hs]

/-- C1 counterexample, in two parts. (1) `lastRunAt` is not the run's start
time: a successful run entered at `Date.now() = 0` whose success commit reads
`Date.now() = 5` persists `lastRunAt = 5`, not `0`. (2) `nextRunAt` is not
always strictly greater than `lastRunAt`: in a west-of-UTC zone (offset −300,
host in the same zone) a successful run at 1736132400000 (Sunday 2025-01-05
22:00 local) over the schedule `times = ["22:30"]`, `daysOfWeek = ["Sun"]`
commits `nextRunAt = 1736116200000 < lastRunAt = 1736132400000` — the
wall-clock→UTC conversion of `calculateNextRunAt` shifts the chosen
22:30 slot to before "now". -/
theorem runCommit_claim_cx :
    (((createAutomatedJob okCollab 360 360 "rid" 0 5 baseAuto).2.getD 1 baseAuto).lastRunAt
        = some 5 ∧ (5 : Int) ≠ 0) ∧
    (((createAutomatedJob okCollab (-300) (-300) "rid" 0 1736132400000
        { baseAuto with times := ["22:30"], daysOfWeek := ["Sun"] }).2.getD 1
        baseAuto).lastRunAt = some 1736132400000 ∧
     ((createAutomatedJob okCollab (-300) (-300) "rid" 0 1736132400000
        { baseAuto with times := ["22:30"], daysOfWeek := ["Sun"] }).2.getD 1
        baseAuto).nextRunAt = some 1736116200000 ∧
     (1736116200000 : Int) < 1736132400000) :=
  ⟨⟨rfl, by decide⟩, rfl, rfl, by decide⟩

/-! ### The success commit of `createAutomatedJob`

The next lemmas establish that, when the host runs in the config zone
(`oH = oZ`) and that zone is not west of UTC (`0 ≤ oZ`), every candidate the
scan of `calculateNextRunAt` can keep lies strictly after "now", hence the
committed `nextRunAt` (when non-null) lies strictly after the committed
`lastRunAt`. -/

/-- A left fold whose step, for every element of the list, either keeps the
accumulator or keeps a value satisfying `P` yields — when it yields anything —
a value satisfying `P`. -/
theorem foldl_someInv {α : Type} (P : Int → Prop) (step : Option Int → α → Option Int) :
    ∀ l : List α,
      (∀ acc x, x ∈ l → (∀ w, acc = some w → P w) → ∀ w, step acc x = some w → P w) →
      ∀ acc : Option Int, (∀ w, acc = some w → P w) →
      ∀ w, l.foldl step acc = some w → P w := by
  intro l
  induction l with
  | nil =>
    intro _ acc hacc w hw
    simp only [List.foldl_nil] at hw
    exact hacc w hw
  | cons x xs ih =>
    intro hstep acc hacc w hw
    simp only [List.foldl_cons] at hw
    exact ih (fun a y hy => hstep a y (List.mem_cons_of_mem x hy)) (step acc x)
      (hstep acc x (List.mem_cons_self x xs) hacc) w hw

/-- `keepEarlier` preserves a predicate satisfied by both the incumbent and the
inserted candidate. -/
theorem keepEarlier_inv (P : Int → Prop) (cand : Option Int) (cDate : Int)
    (hcand : ∀ w, cand = some w → P w) (hc : P cDate) :
    ∀ w, keepEarlier cand cDate = some w → P w := by
  intro w hw
  cases cand with
  | none =>
    simp only [keepEarlier] at hw
    cases hw; exact hc
  | some b =>
    simp only [keepEarlier] at hw
    by_cases hlt : cDate < b
    · rw [if_pos hlt] at hw; cases hw; exact hc
    · rw [if_neg hlt] at hw; cases hw; exact hcand _ rfl

/-- Every candidate the inner time loop can keep lies strictly after the
second-truncated "now" (`n = tNow / 1000` seconds): a day-offset-0 candidate
because of the explicit `candidateDate <= now` skip, a later-day candidate
because its day start already lies beyond "now" (scheduled hours and minutes
are nonnegative). Stated for a host running in the config zone (`oH = oZ`). -/
theorem timeSlotStep_inv (oZ n : Int) (lastRunAt : Option Int) (k : Nat)
    (cand : Option Int) (tm : Int × Int)
    (htm : 0 ≤ tm.1 ∧ 0 ≤ tm.2)
    (hcand : ∀ w, cand = some w → n * 1000 + 1000 ≤ w) :
    ∀ w, timeSlotStep oZ (n * 1000) lastRunAt (n * 1000 + (k : Int) * 86400000) k cand tm
      = some w → n * 1000 + 1000 ≤ w := by
  intro w hw
  simp only [timeSlotStep, rankOf] at hw
  split at hw
  · exact hcand w hw
  next h1 =>
    split at hw
    · exact hcand w hw
    · refine keepEarlier_inv _ cand _ hcand ?_ w hw
      have f1000 : ∀ x : Int, Int.fdiv x 1000 = x / 1000 :=
        fun x => Int.fdiv_eq_ediv x (by norm_num)
      have f86400 : ∀ x : Int, Int.fdiv x 86400 = x / 86400 :=
        fun x => Int.fdiv_eq_ediv x (by norm_num)
      simp only [f1000, f86400] at h1 ⊢
      rcases htm with ⟨hh, hm⟩
      rcases Decidable.not_and_iff_or_not.mp h1 with hk | hle
      · omega
      · omega

/-- One day of the scan preserves the strictly-after-now bound (host in the
config zone). -/
theorem dayStep_inv (oZ n : Int) (lastRunAt : Option Int)
    (validDays : List Int) (validTimes : List (Int × Int))
    (hT : ∀ tm ∈ validTimes, 0 ≤ tm.1 ∧ 0 ≤ tm.2)
    (cand : Option Int) (k : Nat)
    (hcand : ∀ w, cand = some w → n * 1000 + 1000 ≤ w) :
    ∀ w, dayStep validDays validTimes oZ oZ (n * 1000) lastRunAt cand k = some w →
      n * 1000 + 1000 ≤ w := by
  intro w hw
  simp only [dayStep] at hw
  split at hw
  · exact hcand w hw
  · refine foldl_someInv _ _ validTimes ?_ cand hcand w hw
    intro acc tm htmMem hacc w' hw'
    exact timeSlotStep_inv oZ n lastRunAt k acc tm (hT tm htmMem) hacc w' hw'

/-- When the host runs in the config zone (`oH = oZ`), that zone is not west of
UTC, and every parseable `"HH:MM"` entry has nonnegative components, a non-null
`calculateNextRunAt` result lies strictly after the `tNow` it was computed
from. -/
theorem calculateNextRunAt_future (times daysOfWeek : List String) (oZ tNow : Int)
    (lastRunAt : Option Int) (hZ : 0 ≤ oZ)
    (hT : ∀ s ∈ times, ∀ h m : Int, parseTimeEntry s = some (h, m) → 0 ≤ h ∧ 0 ≤ m)
    (v : Int) (hv : calculateNextRunAt times daysOfWeek oZ oZ tNow lastRunAt = some v) :
    tNow < v := by
  simp only [calculateNextRunAt] at hv
  split at hv
  · exact Option.noConfusion hv
  · split at hv
    · exact Option.noConfusion hv
    · split at hv
      · exact Option.noConfusion hv
      · split at hv
        · exact Option.noConfusion hv
        next cDate hfold =>
          have he0 : (Int.fdiv tNow 1000 + (oZ - oZ) * 60) * 1000
              = Int.fdiv tNow 1000 * 1000 := by ring
          rw [he0] at hfold
          have hP : Int.fdiv tNow 1000 * 1000 + 1000 ≤ cDate := by
            refine foldl_someInv _ _ (List.range 7) ?_ none (by intro w hw; cases hw)
              cDate hfold
            intro acc k hk hacc w' hw'
            refine dayStep_inv oZ (Int.fdiv tNow 1000) lastRunAt _ _ ?_ acc k hacc w' hw'
            intro tm htm
            rcases List.mem_filterMap.mp htm with ⟨s, hs, hps⟩
            have := hT s hs tm.1 tm.2 (by simpa using hps)
            exact this
          cases hv
          have f1000 : ∀ x : Int, Int.fdiv x 1000 = x / 1000 :=
            fun x => Int.fdiv_eq_ediv x (by norm_num)
          simp only [f1000] at hP ⊢
          omega

/-- C1 (amended): on a fully successful run, `createAutomatedJob` persists the
lock and then the success commit, whose `lastRunAt` is the `Date.now()` read at
the commit (after the pipeline, not the run's entry time), whose `isRunning` is
deliberately still true with the run's `runId`, and whose `nextRunAt` is the
recomputed next slot — strictly greater than `lastRunAt` whenever it is
non-null, provided the host runs in the config zone, the zone is not west of
UTC, and the schedule's parseable times have nonnegative components (for west
zones the conversion defect exhibited by the counterexample above can invert
the order). -/
theorem runSuccess_commitState (c : Collab) (oZ : Int) (rid : String)
    (startTime nowCommit : Int) (a : ChannelAutomation) (jobId : String)
    (hZ : 0 ≤ oZ)
    (hT : ∀ s ∈ a.times, ∀ h m : Int, parseTimeEntry s = some (h, m) → 0 ≤ h ∧ 0 ≤ m)
    (hcap : (c.activeCount : Int) < jsOrInt a.maxActiveTasks 2)
    (hok : pipelineJobId c a = .ok jobId) :
    createAutomatedJob c oZ oZ rid startTime nowCommit a =
      (some jobId,
       [{ a with isRunning := true, runId := some rid },
        { a with lastRunAt := some nowCommit
                 nextRunAt := calculateNextRunAt a.times a.daysOfWeek oZ oZ nowCommit
                   (some nowCommit)
                 isRunning := true
                 runId := some rid }]) ∧
    (∀ v, calculateNextRunAt a.times a.daysOfWeek oZ oZ nowCommit (some nowCommit) = some v →
      nowCommit < v) := by
  constructor
  · simp [createAutomatedJob, not_le.mpr hcap, hok]
  · intro v hv
    exact calculateNextRunAt_future a.times a.daysOfWeek oZ nowCommit (some nowCommit)
      hZ hT v hv

/-- Witness for `runSuccess_commitState`: a successful run in the default zone
(offset +360) at Monday 2025-01-06 09:00 local; the commit carries
`lastRunAt = 1736132400000` and a strictly later `nextRunAt`. -/
theorem runSuccess_commitState_witness :
    createAutomatedJob okCollab 360 360 "rid" 0 1736132400000 baseAuto =
      (some "job1",
       [{ baseAuto with isRunning := true, runId := some "rid" },
        { baseAuto with lastRunAt := some 1736132400000
                        nextRunAt := calculateNextRunAt baseAuto.times baseAuto.daysOfWeek
                          360 360 1736132400000 (some 1736132400000)
                        isRunning := true
                        runId := some "rid" }]) ∧
    (∀ v, calculateNextRunAt baseAuto.times baseAuto.daysOfWeek 360 360 1736132400000
        (some 1736132400000) = some v → 1736132400000 < v) :=
  runSuccess_commitState okCollab 360 "rid" 0 1736132400000 baseAuto "job1"
    (by norm_num)
    (by
      intro s hs h m hp
      have hs' : s = "10:00" := by
        simpa [baseAuto] using hs
      subst hs'
      rw [show parseTimeEntry "10:00" = some (10, 0) from rfl] at hp
      cases hp
      norm_num)
    (by decide) rfl
